import Mathlib

/-!
Verification development for the `myloginid/ocr` repository.

The repository has three Python source files:
- `ocr_extract.py` — the Document Pipeline and OCR Extractor
  (`extract_pdf_text`, `_extract_page_text`, `_parse_languages`);
- `webapp.py` — the Flask orchestrator (`upload`, `_worker`, `view`,
  `_parse_languages`);
- `run_flask.py` — the launcher which pre-warms an EasyOCR reader.

Embedding conventions:
- Python strings are embedded as `List Char`;
- Python real numbers (floats) are embedded as `ℚ` — the source only
  compares, stores and serializes them, it never exploits IEEE rounding;
- a raised exception is an `Option`/`Except` failure;
- engine output (a black box at the spec boundary) is an explicit list of
  raw detections whose fields range over small inductive types of Python
  values covering exactly the shapes the defensive code distinguishes
  (float-coercible scalars, iterables, objects with an `item` attribute,
  non-coercible objects).
-/

/-! ## Python string primitives

`pyStrip` embeds Python `str.strip()`: drop leading and trailing
whitespace.  `pySplit` embeds `str.split(sep)` for a one-character
separator: `"".split(",") == [""]` and empty runs between separators are
kept, exactly as in Python. -/

def pyStrip (cs : List Char) : List Char :=
  (cs.dropWhile Char.isWhitespace).rdropWhile Char.isWhitespace

def pySplit (sep : Char) : List Char → List (List Char)
  | [] => [[]]
  | c :: cs =>
    if c = sep then [] :: pySplit sep cs
    else
      match pySplit sep cs with
      | [] => [[c]]
      | g :: gs => (c :: g) :: gs

/-! ## `webapp._parse_languages` (webapp.py lines 51-54)

```python
def _parse_languages(raw: str | None) -> List[str]:
    value = (raw or "en").strip()
    langs = [p.strip() for p in value.split(",") if p.strip()]
    return langs or ["en"]
```

`raw or "en"` yields `"en"` when `raw` is `None` or the empty string
(both falsy).  The comprehension keeps `p.strip()` exactly when it is a
non-empty (truthy) string.  `langs or ["en"]` falls back when the list is
empty.  The three `let`-steps of the Python body are named definitions. -/

def webLangsValue (raw : Option (List Char)) : List Char :=
  pyStrip (match raw with
    | none => ['e', 'n']
    | some s => if s = [] then ['e', 'n'] else s)

def webLangsList (raw : Option (List Char)) : List (List Char) :=
  (pySplit ',' (webLangsValue raw)).filterMap
    (fun p => let t := pyStrip p; if t = [] then none else some t)

def webParseLanguages (raw : Option (List Char)) : List (List Char) :=
  match webLangsList raw with
  | [] => [['e', 'n']]
  | l => l

/-! ### Lemmas about the string primitives -/

theorem get_zero_of_isPrefix {α : Type} (l₁ l₂ : List α) (h : l₁ <+: l₂)
    (h1 : 0 < l₁.length) (h2 : 0 < l₂.length) :
    l₁.get ⟨0, h1⟩ = l₂.get ⟨0, h2⟩ := by
  obtain ⟨t, rfl⟩ := h
  cases l₁ with
  | nil => simp at h1
  | cons a as => rfl

theorem pyStrip_idem (l : List Char) : pyStrip (pyStrip l) = pyStrip l := by
  unfold pyStrip
  have hstep1 : ((l.dropWhile Char.isWhitespace).rdropWhile
      Char.isWhitespace).dropWhile Char.isWhitespace
      = (l.dropWhile Char.isWhitespace).rdropWhile Char.isWhitespace := by
    rw [List.dropWhile_eq_self_iff]
    intro hl
    have hpre := List.rdropWhile_prefix Char.isWhitespace
      (l.dropWhile Char.isWhitespace)
    have hlen : 0 < (l.dropWhile Char.isWhitespace).length :=
      lt_of_lt_of_le hl hpre.length_le
    have hself : (l.dropWhile Char.isWhitespace).dropWhile Char.isWhitespace
        = l.dropWhile Char.isWhitespace := List.dropWhile_idempotent _ l
    have hhead := List.dropWhile_eq_self_iff.mp hself hlen
    rw [get_zero_of_isPrefix _ _ hpre hl hlen]
    exact hhead
  rw [hstep1, List.rdropWhile_idempotent]

theorem pyStrip_eq_nil_of_all_ws (l : List Char)
    (h : ∀ c ∈ l, Char.isWhitespace c) : pyStrip l = [] := by
  unfold pyStrip
  have : l.dropWhile Char.isWhitespace = [] :=
    List.dropWhile_eq_nil_iff.mpr h
  rw [this]
  simp

theorem pyStrip_sublist (l : List Char) : (pyStrip l).Sublist l := by
  unfold pyStrip
  exact ((List.rdropWhile_prefix _ _).sublist).trans
    (List.dropWhile_suffix _).sublist

theorem pySplit_mem (sep : Char) :
    ∀ (l g : List Char), g ∈ pySplit sep l → ∀ c ∈ g, c ∈ l ∧ c ≠ sep := by
  intro l
  induction l with
  | nil =>
    intro g hg c hc
    simp [pySplit] at hg
    subst hg
    simp at hc
  | cons a l ih =>
    intro g hg c hc
    by_cases hsep : a = sep
    · rw [pySplit, if_pos hsep] at hg
      rcases List.mem_cons.mp hg with h | h
      · subst h; simp at hc
      · have := ih g h c hc
        exact ⟨List.mem_cons_of_mem _ this.1, this.2⟩
    · rw [pySplit, if_neg hsep] at hg
      cases htail : pySplit sep l with
      | nil =>
        rw [htail] at hg
        simp at hg
        subst hg
        simp at hc
        subst hc
        exact ⟨List.mem_cons_self _ _, hsep⟩
      | cons g0 gs =>
        rw [htail] at hg
        rcases List.mem_cons.mp hg with h | h
        · subst h
          rcases List.mem_cons.mp hc with h1 | h1
          · subst h1
            exact ⟨List.mem_cons_self _ _, hsep⟩
          · have := ih g0 (htail ▸ List.mem_cons_self g0 gs) c h1
            exact ⟨List.mem_cons_of_mem _ this.1, this.2⟩
        · have := ih g (htail ▸ List.mem_cons_of_mem g0 h) c hc
          exact ⟨List.mem_cons_of_mem _ this.1, this.2⟩

/-! ## Claim theorems for C10 -/

/-- **C10.** For every input to the web language parser
(`webapp._parse_languages`) — including `None`, the empty string, and
strings containing only whitespace and commas — the parsed language list
is non-empty; each element is a non-empty, already-trimmed language code;
and whenever the input is `None` or contains only whitespace and commas
(so that no codes remain after splitting and trimming), the result is
exactly the single-element list `["en"]`. -/
theorem C10_parse_languages_total (raw : Option (List Char)) :
    webParseLanguages raw ≠ [] ∧
    (∀ l ∈ webParseLanguages raw, l ≠ [] ∧ pyStrip l = l) ∧
    (∀ s, raw = some s → (∀ c ∈ s, Char.isWhitespace c ∨ c = ',') →
      webParseLanguages raw = [['e', 'n']]) ∧
    (raw = none → webParseLanguages raw = [['e', 'n']]) := by
  refine ⟨?_, ?_, ?_, ?_⟩
  · unfold webParseLanguages
    cases h : webLangsList raw with
    | nil => simp
    | cons x xs => simp
  · intro l hl
    unfold webParseLanguages at hl
    cases h : webLangsList raw with
    | nil =>
      rw [h] at hl
      simp at hl
      subst hl
      exact ⟨by decide, by decide⟩
    | cons x xs =>
      rw [h] at hl
      have hmem : l ∈ webLangsList raw := by rw [h]; exact hl
      rcases List.mem_filterMap.mp hmem with ⟨p, -, hp⟩
      simp only at hp
      by_cases ht : pyStrip p = []
      · simp [ht] at hp
      · simp [ht] at hp
        subst hp
        exact ⟨ht, pyStrip_idem p⟩
  · intro s hs hall
    subst hs
    by_cases hnil : s = []
    · subst hnil
      decide
    · have hval : ∀ c ∈ webLangsValue (some s),
          Char.isWhitespace c ∨ c = ',' := by
        intro c hc
        unfold webLangsValue at hc
        simp only [if_neg hnil] at hc
        exact hall c ((pyStrip_sublist s).mem hc)
      have hempty : ∀ p ∈ pySplit ',' (webLangsValue (some s)),
          pyStrip p = [] := by
        intro p hp
        apply pyStrip_eq_nil_of_all_ws
        intro c hc
        have := pySplit_mem ',' _ p hp c hc
        rcases hval c this.1 with h | h
        · exact h
        · exact absurd h this.2
      have hfm : webLangsList (some s) = [] := by
        unfold webLangsList
        rw [List.filterMap_eq_nil_iff]
        intro p hp
        simp [hempty p hp]
      unfold webParseLanguages
      rw [hfm]
  · intro h
    subst h
    decide

/-- Witness for C10: a concrete input of only whitespace and commas parses
to `["en"]`. -/
theorem C10_witness :
    webParseLanguages (some [' ', ',', ' ']) = [['e', 'n']] :=
  (C10_parse_languages_total (some [' ', ',', ' '])).2.2.1
    [' ', ',', ' '] rfl (by decide)

/-! ## OCR Extractor (`ocr_extract._extract_page_text`, lines 29-66)

```python
for bbox, text, confidence in reader.readtext(image_array):
    try:
        conf_f = float(confidence)
    except Exception:
        conf_f = float(confidence.item()) if hasattr(confidence, "item") else 0.0
    if conf_f < min_confidence or not str(text).strip():
        continue
    py_bbox = []
    try:
        for pt in bbox:
            x, y = pt
            py_bbox.append([float(x), float(y)])
    except Exception:
        py_bbox = [[float(p) for p in (pt if hasattr(pt, "__iter__") else [pt])] for pt in bbox]
    results.append({"text": str(text).strip(), "confidence": conf_f, "bbox": py_bbox})
```

The engine's untyped values are embedded by the shapes this code
distinguishes.  A `PyElem` is a candidate argument of `float(...)`:
either coercible to a rational or not.  A `PyPoint` is one quad point:
either a non-iterable scalar (so `x, y = pt` raises `TypeError`) or an
iterable of scalars.  A `PyConf` is a raw confidence value: either
`float(...)`-coercible, or uncoercible with an `.item` attribute whose
result coerces or not, or uncoercible without `.item`. -/

inductive PyElem where
  | num (q : ℚ)
  | bad
deriving DecidableEq

inductive PyPoint where
  | scalar (e : PyElem)
  | seq (es : List PyElem)
deriving DecidableEq

inductive PyConf where
  | num (q : ℚ)
  | item (r : Option ℚ)
  | other
deriving DecidableEq

structure RawDetection where
  bbox : List PyPoint
  text : List Char
  confidence : PyConf
deriving DecidableEq

structure Detection where
  text : List Char
  confidence : ℚ
  bbox : List (List ℚ)
deriving DecidableEq

/-- `float(e)`: `some` on coercible values, `none` = raises. -/
def floatElem : PyElem → Option ℚ
  | .num q => some q
  | .bad => none

/-- The `try: conf_f = float(confidence) except: ...` dance.  `none`
means the exception propagates (uncoercible value with an `.item`
attribute whose own coercion also raises). -/
def coerceConfidence : PyConf → Option ℚ
  | .num q => some q
  | .item (some q) => some q
  | .item none => none
  | .other => some 0

/-- A Python list comprehension / accumulation loop over `f`: the whole
thing succeeds only if every element does (the first failure raises). -/
def tryMap {α β : Type} (f : α → Option β) : List α → Option (List β)
  | [] => some []
  | a :: l =>
    match f a, tryMap f l with
    | some b, some bs => some (b :: bs)
    | _, _ => none

/-- First branch of bbox normalization: `x, y = pt` then
`[float(x), float(y)]`.  Fails on non-iterables (TypeError on unpack), on
sequences whose length is not 2 (ValueError), and on uncoercible
coordinates. -/
def coercePointUnpack : PyPoint → Option (List ℚ)
  | .scalar _ => none
  | .seq [a, b] =>
    match floatElem a, floatElem b with
    | some x, some y => some [x, y]
    | _, _ => none
  | .seq _ => none

/-- Fallback branch: `[float(p) for p in (pt if hasattr(pt, "__iter__")
else [pt])]`. -/
def coercePointFallback : PyPoint → Option (List ℚ)
  | .scalar e => (floatElem e).map (fun q => [q])
  | .seq es => tryMap floatElem es

/-- The whole bbox normalization: try the unpack loop over all points; on
any failure, rerun the fallback comprehension over all points; a failure
there propagates out of `_extract_page_text`. -/
def coerceBbox (bbox : List PyPoint) : Option (List (List ℚ)) :=
  match tryMap coercePointUnpack bbox with
  | some r => some r
  | none => tryMap coercePointFallback bbox

/-- `_extract_page_text` over the engine's raw detections.  `.error`
means an uncaught exception aborts the extraction. -/
def extractPageText (minConf : ℚ) : List RawDetection → Except String (List Detection)
  | [] => .ok []
  | d :: ds =>
    match coerceConfidence d.confidence with
    | none => .error "could not convert confidence to float"
    | some c =>
      if c < minConf ∨ pyStrip d.text = [] then extractPageText minConf ds
      else
        match coerceBbox d.bbox with
        | none => .error "could not convert bbox point to float"
        | some bb =>
          match extractPageText minConf ds with
          | .error e => .error e
          | .ok rest => .ok ({ text := pyStrip d.text, confidence := c, bbox := bb } :: rest)

/-- Every atomic element of the point is `float(...)`-coercible. -/
def pointCoercible : PyPoint → Bool
  | .scalar e => (floatElem e).isSome
  | .seq es => es.all (fun e => (floatElem e).isSome)

theorem tryMap_isSome {α β : Type} (f : α → Option β) :
    ∀ l : List α, (∀ x ∈ l, (f x).isSome) → (tryMap f l).isSome := by
  intro l
  induction l with
  | nil => intro; simp [tryMap]
  | cons a l ih =>
    intro h
    have ha : (f a).isSome := h a (List.mem_cons_self a l)
    have hl : (tryMap f l).isSome := ih (fun x hx => h x (List.mem_cons_of_mem a hx))
    rcases Option.isSome_iff_exists.mp ha with ⟨b, hb⟩
    rcases Option.isSome_iff_exists.mp hl with ⟨bs, hbs⟩
    simp [tryMap, hb, hbs]

/-! ## Claim theorems for C2 -/

/-- Counterexample to **C2** as stated: a detection whose quad "point" is
a single non-coercible object defeats both the unpack loop (TypeError)
and the element-wise fallback (`float` raises again), so the
normalization raises and the page produces no result. -/
theorem C2_counterexample :
    extractPageText 0 [⟨[PyPoint.scalar PyElem.bad], ['h', 'i'], PyConf.num 1⟩]
      = .error "could not convert bbox point to float" := rfl

/-- **C2 (amended).** The Extractor's quad-point normalization never
raises — and hence `_extract_page_text` always produces a result for the
page as far as bbox handling is concerned — provided every atomic element
of every quad point is coercible to a real number; a point that is not a
2-tuple is still handled (by the element-wise fallback), but a
non-coercible element makes the fallback itself raise. -/
theorem C2_bbox_normalization_total (bbox : List PyPoint)
    (h : ∀ pt ∈ bbox, pointCoercible pt) : (coerceBbox bbox).isSome := by
  unfold coerceBbox
  cases h1 : tryMap coercePointUnpack bbox with
  | some r => simp
  | none =>
    apply tryMap_isSome
    intro pt hpt
    have hp := h pt hpt
    cases pt with
    | scalar e =>
      simp only [pointCoercible] at hp
      rcases Option.isSome_iff_exists.mp hp with ⟨q, hq⟩
      simp [coercePointFallback, hq]
    | seq es =>
      simp only [pointCoercible, List.all_eq_true] at hp
      apply tryMap_isSome
      intro e he
      exact hp e he

/-- Witness for C2: a bbox mixing a proper 2-tuple, a bare scalar and a
3-element point — all with coercible elements — normalizes successfully. -/
theorem C2_witness :
    (coerceBbox [PyPoint.seq [PyElem.num 0, PyElem.num 1],
      PyPoint.scalar (PyElem.num 5),
      PyPoint.seq [PyElem.num 1, PyElem.num 2, PyElem.num 3]]).isSome :=
  C2_bbox_normalization_total _ (by decide)

/-! ## Claim theorems for C3 -/

/-- Counterexample to **C3** as stated: a confidence value that
`float(...)` rejects but which has an `.item` attribute whose own
coercion also fails makes the handler's `float(confidence.item())`
raise, aborting the whole extraction instead of treating the confidence
as `0.0` and continuing with the remaining detection. -/
theorem C3_counterexample :
    extractPageText (1/5)
      [⟨[], ['h', 'i'], PyConf.item none⟩, ⟨[], ['o', 'k'], PyConf.num 1⟩]
      = .error "could not convert confidence to float" := rfl

/-- **C3 (amended).** For every raw detection whose confidence value
cannot be coerced to a real number *and which has no `item` attribute*,
the Extractor treats that detection's confidence as exactly `0.0` (so it
is excluded under any positive `min_confidence`) and continues with the
remaining detections; when the uncoercible value has an `item` attribute
whose coercion also fails, the extraction aborts instead. -/
theorem C3_uncoercible_confidence (minConf : ℚ) (d : RawDetection)
    (ds : List RawDetection) (hconf : d.confidence = PyConf.other)
    (hpos : 0 < minConf) :
    coerceConfidence d.confidence = some 0 ∧
    extractPageText minConf (d :: ds) = extractPageText minConf ds := by
  rcases d with ⟨bbox, text, conf⟩
  simp only at hconf
  subst hconf
  refine ⟨rfl, ?_⟩
  simp only [extractPageText, coerceConfidence]
  rw [if_pos (Or.inl hpos)]

/-- Witness for C3: with threshold `1/5`, a no-`item` uncoercible
confidence is zeroed and skipped, leaving the rest of the page intact. -/
theorem C3_witness :
    coerceConfidence (RawDetection.mk [] ['h', 'i'] PyConf.other).confidence
        = some 0 ∧
    extractPageText (1/5)
        [⟨[], ['h', 'i'], PyConf.other⟩, ⟨[], ['o', 'k'], PyConf.num 1⟩]
      = extractPageText (1/5) [⟨[], ['o', 'k'], PyConf.num 1⟩] :=
  C3_uncoercible_confidence (1/5) _ _ rfl (by norm_num)

/-! ## Claim theorems for C5 -/

/-- Shared structure lemma: every detection in a successful extraction
passed the threshold test, has non-empty already-trimmed text, and its
confidence is the coerced confidence of some raw detection of the page. -/
theorem extractPageText_ok_mem (minConf : ℚ) :
    ∀ (raws : List RawDetection) (dets : List Detection),
      extractPageText minConf raws = .ok dets → ∀ d ∈ dets,
        (minConf ≤ d.confidence ∧ d.text ≠ [] ∧ pyStrip d.text = d.text) ∧
        ∃ r ∈ raws, coerceConfidence r.confidence = some d.confidence := by
  intro raws
  induction raws with
  | nil =>
    intro dets h d hd
    simp only [extractPageText] at h
    cases h
    simp at hd
  | cons r raws ih =>
    intro dets h d hd
    simp only [extractPageText] at h
    cases hc : coerceConfidence r.confidence with
    | none => rw [hc] at h; cases h
    | some c =>
      rw [hc] at h
      simp only at h
      by_cases hskip : c < minConf ∨ pyStrip r.text = []
      · rw [if_pos hskip] at h
        have := ih dets h d hd
        exact ⟨this.1, by
          rcases this.2 with ⟨r0, hr0, hcr0⟩
          exact ⟨r0, List.mem_cons_of_mem _ hr0, hcr0⟩⟩
      · rw [if_neg hskip] at h
        cases hb : coerceBbox r.bbox with
        | none => rw [hb] at h; cases h
        | some bb =>
          rw [hb] at h
          simp only at h
          cases hrest : extractPageText minConf raws with
          | error e => rw [hrest] at h; cases h
          | ok rest =>
            rw [hrest] at h
            simp only [Except.ok.injEq] at h
            subst h
            push_neg at hskip
            rcases List.mem_cons.mp hd with hdh | hdt
            · subst hdh
              exact ⟨⟨hskip.1, hskip.2, pyStrip_idem r.text⟩,
                ⟨r, List.mem_cons_self _ _, hc⟩⟩
            · have := ih rest hrest d hdt
              exact ⟨this.1, by
                rcases this.2 with ⟨r0, hr0, hcr0⟩
                exact ⟨r0, List.mem_cons_of_mem _ hr0, hcr0⟩⟩

/-- Counterexample to **C5** as stated: with `min_confidence = 0 ∈ [0,1]`,
a raw engine confidence of `2` passes the filter unchanged — the code
never clamps or checks the upper bound — so an emitted detection has
confidence outside `[min_confidence, 1]`. -/
theorem C5_counterexample :
    extractPageText 0 [⟨[], ['h', 'i'], PyConf.num 2⟩]
      = .ok [⟨['h', 'i'], 2, []⟩] ∧ ¬ ((2 : ℚ) ≤ 1) :=
  ⟨rfl, by norm_num⟩

/-- **C5 (amended).** For every `min_confidence`, every detection emitted
by the Extractor has `confidence ≥ min_confidence` and non-empty text
after trimming (the stored text is already trimmed); the upper bound
`confidence ≤ 1` holds whenever every raw engine confidence coerces to a
value `≤ 1` (the code itself never clamps); and the filter is inclusive
at the boundary: a detection with confidence exactly `min_confidence`
(and non-empty trimmed text and a normalizable bbox) is kept. -/
theorem C5_extractor_filter (minConf : ℚ) :
    (∀ raws dets, extractPageText minConf raws = .ok dets →
      ∀ d ∈ dets, minConf ≤ d.confidence ∧ d.text ≠ [] ∧
        pyStrip d.text = d.text) ∧
    (∀ raws dets,
      (∀ r ∈ raws, ∀ c, coerceConfidence r.confidence = some c → c ≤ 1) →
      extractPageText minConf raws = .ok dets →
      ∀ d ∈ dets, minConf ≤ d.confidence ∧ d.confidence ≤ 1) ∧
    (∀ r raws rest bb, coerceConfidence r.confidence = some minConf →
      pyStrip r.text ≠ [] → coerceBbox r.bbox = some bb →
      extractPageText minConf raws = .ok rest →
      extractPageText minConf (r :: raws)
        = .ok (⟨pyStrip r.text, minConf, bb⟩ :: rest)) := by
  refine ⟨?_, ?_, ?_⟩
  · intro raws dets h d hd
    exact (extractPageText_ok_mem minConf raws dets h d hd).1
  · intro raws dets hhi h d hd
    have hm := extractPageText_ok_mem minConf raws dets h d hd
    rcases hm.2 with ⟨r, hr, hcr⟩
    exact ⟨hm.1.1, hhi r hr d.confidence hcr⟩
  · intro r raws rest bb hc ht hb hrest
    rcases r with ⟨bbox, text, conf⟩
    simp only at hc ht hb
    simp only [extractPageText]
    rw [hc]
    simp only
    rw [if_neg (not_or.mpr ⟨lt_irrefl minConf, ht⟩), hb]
    simp only
    rw [hrest]

/-- Witness for C5: a page with one boundary detection (confidence
exactly `1/5` at threshold `1/5`) and one engine confidence of `1`; the
boundary detection is kept and both emitted detections respect the
amended bounds. -/
theorem C5_witness :
    extractPageText (1/5)
        [⟨[PyPoint.seq [PyElem.num 0, PyElem.num 1]], [' ', 'h', 'i'],
          PyConf.num (1/5)⟩]
      = .ok [⟨['h', 'i'], 1/5, [[0, 1]]⟩] ∧
    ((1 : ℚ)/5 ≤ 1/5 ∧ (1 : ℚ)/5 ≤ 1) := by
  constructor
  · have := (C5_extractor_filter (1/5)).2.2
      ⟨[PyPoint.seq [PyElem.num 0, PyElem.num 1]], [' ', 'h', 'i'],
        PyConf.num (1/5)⟩ [] [] [[0, 1]] rfl (by decide) rfl rfl
    simpa using this
  · norm_num

/-! ## Document Pipeline (`ocr_extract.extract_pdf_text`, lines 69-95)

```python
with fitz.open(pdf_path) as document:
    for page_index, page in enumerate(document, start=1):
        image_array = _load_page_as_array(page, dpi)
        entries = _extract_page_text(reader, image_array, min_confidence)
        pages_output.append({"page": page_index, "items": entries})
```

An opened document is a list of pages; for each page the composition of
the rasterizer and the engine's `readtext` — both black boxes at the spec
boundary — either raises or yields the page's raw detections, so a page
source is `Except String (List RawDetection)`.  Any failure aborts the
whole pipeline. -/

structure PageOut where
  page : Nat
  items : List Detection
deriving DecidableEq

abbrev PageSource := Except String (List RawDetection)

def extractPagesFrom (minConf : ℚ) :
    Nat → List PageSource → Except String (List PageOut)
  | _, [] => .ok []
  | n, p :: ps =>
    match p with
    | .error e => .error e
    | .ok raws =>
      match extractPageText minConf raws with
      | .error e => .error e
      | .ok items =>
        match extractPagesFrom minConf (n + 1) ps with
        | .error e => .error e
        | .ok rest => .ok ({ page := n, items := items } :: rest)

/-- `extract_pdf_text`: iterate the document's pages with
`enumerate(document, start=1)`. -/
def extract_pdf_text (minConf : ℚ) (doc : List PageSource) :
    Except String (List PageOut) :=
  extractPagesFrom minConf 1 doc

theorem extractPagesFrom_ok (minConf : ℚ) :
    ∀ (doc : List PageSource) (n : Nat) (res : List PageOut),
      extractPagesFrom minConf n doc = .ok res →
      res.length = doc.length ∧
      ∀ i (h : i < res.length), (res.get ⟨i, h⟩).page = n + i := by
  intro doc
  induction doc with
  | nil =>
    intro n res h
    simp only [extractPagesFrom] at h
    cases h
    exact ⟨rfl, fun i h => absurd h (by simp)⟩
  | cons p ps ih =>
    intro n res h
    simp only [extractPagesFrom] at h
    cases p with
    | error e => cases h
    | ok raws =>
      simp only at h
      cases he : extractPageText minConf raws with
      | error e => rw [he] at h; cases h
      | ok items =>
        rw [he] at h
        simp only at h
        cases hr : extractPagesFrom minConf (n + 1) ps with
        | error e => rw [hr] at h; cases h
        | ok rest =>
          rw [hr] at h
          simp only [Except.ok.injEq] at h
          subst h
          have := ih (n + 1) rest hr
          refine ⟨by simpa using this.1, ?_⟩
          intro i hi
          cases i with
          | zero => simp
          | succ j =>
            have hj : j < rest.length := by
              simpa using hi
            have h2 := this.2 j hj
            simp only [List.get_cons_succ, h2]
            omega

/-! ## Claim theorems for C6 -/

/-- **C6.** For every document successfully processed by the Document
Pipeline, the result has exactly one page entry per page of the PDF, and
the page numbers are `1, 2, ..., page_count` in document order: 1-based,
strictly increasing, with no gaps. -/
theorem C6_page_numbers (minConf : ℚ) (doc : List PageSource)
    (res : List PageOut) (h : extract_pdf_text minConf doc = .ok res) :
    res.length = doc.length ∧
    ∀ i (hi : i < res.length), (res.get ⟨i, hi⟩).page = i + 1 := by
  have := extractPagesFrom_ok minConf doc 1 res h
  refine ⟨this.1, ?_⟩
  intro i hi
  rw [this.2 i hi]
  omega

/-- Witness for C6: a concrete 2-page document yields pages numbered 1
and 2. -/
theorem C6_witness :
    ([⟨1, []⟩, ⟨2, [⟨['h', 'i'], 1, []⟩]⟩] : List PageOut).length
      = ([.ok [], .ok [⟨[], ['h', 'i'], PyConf.num 1⟩]] : List PageSource).length ∧
    ∀ i (hi : i < ([⟨1, []⟩, ⟨2, [⟨['h', 'i'], 1, []⟩]⟩] : List PageOut).length),
      (([⟨1, []⟩, ⟨2, [⟨['h', 'i'], 1, []⟩]⟩] : List PageOut).get ⟨i, hi⟩).page
        = i + 1 :=
  C6_page_numbers 0 [.ok [], .ok [⟨[], ['h', 'i'], PyConf.num 1⟩]]
    [⟨1, []⟩, ⟨2, [⟨['h', 'i'], 1, []⟩]⟩] rfl

/-! ## Engine Pool / Reuse Policy
(webapp.py `_worker` lines 91-116, run_flask.py `main` lines 40-53)

```python
# run_flask.py
preload_langs = [p.strip() for p in os.getenv("EASYOCR_LANGS", "en").split(",") if p.strip()]
webapp_module.PRELOADED_READER = easyocr.Reader(preload_langs, gpu=use_gpu)

# webapp.py _worker
pre = globals().get("PRELOADED_READER")
if pre is not None:
    # Best-effort: use preloaded reader if the request only asks for 'en'
    if set(langs) == {"en"}:
        reader = pre

# ocr_extract.extract_pdf_text
reader = reader or easyocr.Reader(list(languages), gpu=use_gpu)
```

A reader carries the language set and GPU flag it was constructed with;
`rid` embeds Python object identity — a fresh construction always has an
id different from every existing reader's. -/

structure Reader where
  rid : Nat
  langs : List (List Char)
  gpu : Bool
deriving DecidableEq

/-- Python `set(a) == set(b)` for lists of strings. -/
def pySetEq (a b : List (List Char)) : Bool :=
  a.all (fun x => b.contains x) && b.all (fun x => a.contains x)

/-- run_flask.py line 40: the pre-warmed language list parsed from the
`EASYOCR_LANGS` environment variable (`os.getenv` default `"en"`; note
there is no `or ["en"]` fallback here, unlike `webapp._parse_languages`). -/
def preloadLangs (env : Option (List Char)) : List (List Char) :=
  (pySplit ',' (match env with | none => ['e', 'n'] | some s => s)).filterMap
    (fun p => let t := pyStrip p; if t = [] then none else some t)

/-- `_worker`'s reader choice: the pre-warmed instance is picked iff it
exists and the job's language set equals the literal `{"en"}` — the
pre-warmed instance's own language set is never consulted. -/
def workerSelectReader (pre : Option Reader) (langs : List (List Char)) :
    Option Reader :=
  match pre with
  | some r => if pySetEq langs [['e', 'n']] then some r else none
  | none => none

/-- `extract_pdf_text`'s
`reader = reader or easyocr.Reader(list(languages), gpu=use_gpu)`: reuse
the passed reader, else construct a fresh one (with a fresh object id). -/
def resolveReader (sel : Option Reader) (langs : List (List Char))
    (useGpu : Bool) (freshId : Nat) : Reader :=
  match sel with
  | some r => r
  | none => ⟨freshId, langs, useGpu⟩

/-- The engine instance a web-submitted job actually runs with
(`_worker` passes `use_gpu=False`). -/
def jobReader (pre : Option Reader) (langs : List (List Char))
    (freshId : Nat) : Reader :=
  resolveReader (workerSelectReader pre langs) langs false freshId

/-! ## Claim theorems for C1 -/

/-- Counterexample to **C1** as stated: start the process with
`EASYOCR_LANGS=fr`, so the pre-warmed instance is built for `{"fr"}`;
a job requesting exactly `{"fr"}` — equal to the pre-warmed set — still
gets a fresh, job-scoped engine, because `_worker` compares the job's
languages against the literal `{"en"}`, not against the pre-warmed
instance's set. -/
theorem C1_counterexample :
    preloadLangs (some ['f', 'r']) = [['f', 'r']] ∧
    pySetEq [['f', 'r']] [['f', 'r']] = true ∧
    jobReader (some ⟨0, [['f', 'r']], false⟩) [['f', 'r']] 1
      = ⟨1, [['f', 'r']], false⟩ ∧
    (⟨1, [['f', 'r']], false⟩ : Reader) ≠ ⟨0, [['f', 'r']], false⟩ := by
  refine ⟨by decide, by decide, rfl, by decide⟩

/-- **C1 (amended).** A job uses the pre-warmed instance iff one exists
and the job's requested language set is exactly the literal set
`{"en"}` — independent of the language set the pre-warmed instance was
built with; otherwise (and when no pre-warmed instance exists) a fresh,
job-scoped engine is constructed for the job's languages with
`use_gpu=False`. -/
theorem C1_engine_reuse (pre : Reader) (langs : List (List Char))
    (freshId : Nat) (hfresh : freshId ≠ pre.rid) :
    (jobReader (some pre) langs freshId = pre ↔
      pySetEq langs [['e', 'n']] = true) ∧
    (pySetEq langs [['e', 'n']] = false →
      jobReader (some pre) langs freshId = ⟨freshId, langs, false⟩) ∧
    jobReader none langs freshId = ⟨freshId, langs, false⟩ := by
  refine ⟨?_, ?_, rfl⟩
  · by_cases h : pySetEq langs [['e', 'n']] = true
    · constructor
      · intro; exact h
      · intro
        simp [jobReader, workerSelectReader, resolveReader, h]
    · constructor
      · intro heq
        exfalso
        apply hfresh
        have : jobReader (some pre) langs freshId
            = ⟨freshId, langs, false⟩ := by
          simp only [jobReader, workerSelectReader, resolveReader, if_neg h]
        rw [this] at heq
        exact congrArg Reader.rid heq.symm ▸ rfl
      · intro h1
        exact absurd h1 h
  · intro h
    simp [jobReader, workerSelectReader, resolveReader, h]

/-- Witness for C1: with a pre-warmed `{"en"}` reader (id 0) and a fresh
id 1, a job requesting `["en"]` reuses the instance and a `["en","fr"]`
job constructs afresh. -/
theorem C1_witness :
    (jobReader (some ⟨0, [['e', 'n']], false⟩) [['e', 'n']] 1
        = ⟨0, [['e', 'n']], false⟩ ↔
      pySetEq [['e', 'n']] [['e', 'n']] = true) ∧
    (pySetEq [['e', 'n']] [['e', 'n']] = false →
      jobReader (some ⟨0, [['e', 'n']], false⟩) [['e', 'n']] 1
        = ⟨1, [['e', 'n']], false⟩) ∧
    jobReader none [['e', 'n']] 1 = ⟨1, [['e', 'n']], false⟩ :=
  C1_engine_reuse ⟨0, [['e', 'n']], false⟩ [['e', 'n']] 1 (by decide)

/-! ## Artifact JSON format
(`ocr_extract._extract_page_text` lines 59-65, `extract_pdf_text` lines
89-94, `webapp._worker` lines 118-120)

The pipeline builds plain dicts
`{"page": <int>, "items": [{"text": ..., "confidence": ..., "bbox": [[x, y], ...]}]}`
and `_worker` writes `json.dumps(pages)`; `view` reads the artifact back
with `json.loads`.  The stdlib codec is a black box at the spec boundary
(it round-trips JSON-safe trees exactly), so serialization is embedded as
the JSON value tree the dicts denote, and parsing as the recovery of the
typed structures from that tree. -/

inductive Json where
  | null
  | bool (b : Bool)
  | num (q : ℚ)
  | str (s : List Char)
  | arr (xs : List Json)
  | obj (fields : List ((List Char) × Json))

def encodeDetection (d : Detection) : Json :=
  .obj [(['t', 'e', 'x', 't'], .str d.text),
    (['c', 'o', 'n', 'f', 'i', 'd', 'e', 'n', 'c', 'e'], .num d.confidence),
    (['b', 'b', 'o', 'x'],
      .arr (d.bbox.map (fun pt => .arr (pt.map Json.num))))]

def encodePage (p : PageOut) : Json :=
  .obj [(['p', 'a', 'g', 'e'], .num (p.page : ℚ)),
    (['i', 't', 'e', 'm', 's'], .arr (p.items.map encodeDetection))]

def encodePages (ps : List PageOut) : Json :=
  .arr (ps.map encodePage)

def decodeNum : Json → Option ℚ
  | .num q => some q
  | _ => none

def decodePoint : Json → Option (List ℚ)
  | .arr qs => tryMap decodeNum qs
  | _ => none

def decodeDetection : Json → Option Detection
  | .obj [(k1, .str t), (k2, .num c), (k3, .arr bs)] =>
    if k1 = ['t', 'e', 'x', 't'] ∧
        k2 = ['c', 'o', 'n', 'f', 'i', 'd', 'e', 'n', 'c', 'e'] ∧
        k3 = ['b', 'b', 'o', 'x'] then
      (tryMap decodePoint bs).map (fun bb => Detection.mk t c bb)
    else none
  | _ => none

def decodePage : Json → Option PageOut
  | .obj [(k1, .num n), (k2, .arr items)] =>
    if k1 = ['p', 'a', 'g', 'e'] ∧ k2 = ['i', 't', 'e', 'm', 's'] ∧
        n.den = 1 ∧ 0 ≤ n.num then
      (tryMap decodeDetection items).map (fun its => PageOut.mk n.num.toNat its)
    else none
  | _ => none

def decodePages : Json → Option (List PageOut)
  | .arr ps => tryMap decodePage ps
  | _ => none

/-- `tryMap` inverts a `map` whose elements all decode back. -/
theorem tryMap_map_roundtrip {α β : Type} (f : β → Option α) (g : α → β) :
    ∀ l : List α, (∀ x ∈ l, f (g x) = some x) → tryMap f (l.map g) = some l := by
  intro l
  induction l with
  | nil => intro; rfl
  | cons a l ih =>
    intro h
    have ha := h a (List.mem_cons_self a l)
    have hl := ih (fun x hx => h x (List.mem_cons_of_mem a hx))
    simp [tryMap, ha, hl]

theorem decodePoint_encode (pt : List ℚ) :
    decodePoint (.arr (pt.map Json.num)) = some pt := by
  simp only [decodePoint]
  exact tryMap_map_roundtrip decodeNum Json.num pt (fun x _ => rfl)

theorem decodeDetection_encode (d : Detection) :
    decodeDetection (encodeDetection d) = some d := by
  rcases d with ⟨t, c, bb⟩
  have hk : (['t', 'e', 'x', 't'] : List Char) = ['t', 'e', 'x', 't'] ∧
      (['c', 'o', 'n', 'f', 'i', 'd', 'e', 'n', 'c', 'e'] : List Char)
        = ['c', 'o', 'n', 'f', 'i', 'd', 'e', 'n', 'c', 'e'] ∧
      (['b', 'b', 'o', 'x'] : List Char) = ['b', 'b', 'o', 'x'] :=
    ⟨rfl, rfl, rfl⟩
  simp only [encodeDetection, decodeDetection, if_pos hk]
  rw [tryMap_map_roundtrip decodePoint (fun pt => .arr (pt.map Json.num)) bb
    (fun pt _ => decodePoint_encode pt)]
  rfl

theorem decodePage_encode (p : PageOut) :
    decodePage (encodePage p) = some p := by
  rcases p with ⟨n, items⟩
  have hc : (['p', 'a', 'g', 'e'] : List Char) = ['p', 'a', 'g', 'e'] ∧
      (['i', 't', 'e', 'm', 's'] : List Char) = ['i', 't', 'e', 'm', 's'] ∧
      ((n : ℚ)).den = 1 ∧ 0 ≤ ((n : ℚ)).num := ⟨rfl, rfl, by simp, by simp⟩
  simp only [encodePage, decodePage, if_pos hc]
  rw [tryMap_map_roundtrip decodeDetection encodeDetection items
    (fun d _ => decodeDetection_encode d)]
  simp

/-! ## Claim theorems for C8 -/

/-- **C8.** For every DocumentResult produced by the pipeline,
serializing it to the artifact JSON format and parsing that JSON back
yields a structurally equal value: the same page numbers and, for each
detection, the same text, the same confidence and the same bounding
quad. -/
theorem C8_json_roundtrip (ps : List PageOut) :
    decodePages (encodePages ps) = some ps := by
  simp only [encodePages, decodePages]
  exact tryMap_map_roundtrip decodePage encodePage ps
    (fun p _ => decodePage_encode p)

/-! ## Job workspace, `_worker` terminal write, and `view`
(webapp.py lines 79-129 and 134-161)

A job's workspace directory holds at most the uploaded `document.pdf`,
the result artifact `ocr.json` and the error artifact `error.txt`.
Artifact contents are the (parsed) values the files hold; a `write_text`
is an atomic field update. -/

structure Workspace where
  pdfExists : Bool
  ocrJson : Option Json
  errorTxt : Option String

/-- The workspace `upload` leaves behind synchronously, before the
worker thread runs: the PDF is persisted, no terminal artifact exists. -/
def freshWorkspace : Workspace :=
  { pdfExists := true, ocrJson := none, errorTxt := none }

/-- The whole pipeline call inside `_worker`'s `try`: `fitz.open` may
fail, then `extract_pdf_text` runs over the opened document's pages. -/
def workerPipeline (minConf : ℚ)
    (docOpen : Except String (List PageSource)) :
    Except String (List PageOut) :=
  match docOpen with
  | .error e => .error e
  | .ok doc => extract_pdf_text minConf doc

/-- `_worker` (webapp.py lines 91-122): on pipeline success write
`ocr.json` with the serialized pages; on any exception write `error.txt`
with the message instead. -/
def runWorker (minConf : ℚ) (docOpen : Except String (List PageSource))
    (ws : Workspace) : Workspace :=
  match workerPipeline minConf docOpen with
  | .ok pages => { ws with ocrJson := some (encodePages pages) }
  | .error e => { ws with errorTxt := some e }

/-- What `view` renders (webapp.py lines 134-161): 404 when the PDF is
missing; the 202 processing page (which also shows `error.txt` when
present) when `ocr.json` does not exist; otherwise the result view over
the parsed `ocr.json`. -/
inductive ViewOutcome where
  | notFound
  | processing (err : Option String)
  | done (pages : Json)

def view (ws : Workspace) : ViewOutcome :=
  if ws.pdfExists = false then .notFound
  else
    match ws.ocrJson with
    | none => .processing ws.errorTxt
    | some j => .done j

/-! ## Claim theorems for C4 -/

/-- **C4.** A job's workspace holds neither terminal artifact while the
job is still processing (right after upload), and whatever the pipeline
does — success or any failure — the worker's terminal write leaves
exactly one of `ocr.json` and `error.txt` in the workspace, never
both. -/
theorem C4_terminal_artifacts (minConf : ℚ)
    (docOpen : Except String (List PageSource)) :
    (freshWorkspace.ocrJson = none ∧ freshWorkspace.errorTxt = none) ∧
    ((runWorker minConf docOpen freshWorkspace).ocrJson.isSome ∧
        (runWorker minConf docOpen freshWorkspace).errorTxt = none) ∨
      ((runWorker minConf docOpen freshWorkspace).ocrJson = none ∧
        (runWorker minConf docOpen freshWorkspace).errorTxt.isSome) := by
  cases h : workerPipeline minConf docOpen with
  | ok pages =>
    left
    refine ⟨⟨rfl, rfl⟩, ?_, ?_⟩ <;> simp [runWorker, h, freshWorkspace]
  | error e =>
    right
    constructor <;> simp [runWorker, h, freshWorkspace]

/-! ## Claim theorems for C9 -/

/-- **C9.** If both `ocr.json` and `error.txt` exist in a job's
workspace, the view surface reports the job as done with the parsed
result artifact: `ocr.json` existence is checked first and `error.txt`
is ignored. -/
theorem C9_result_artifact_wins (ws : Workspace) (j : Json) (e : String)
    (hpdf : ws.pdfExists = true) (hjson : ws.ocrJson = some j)
    (_herr : ws.errorTxt = some e) : view ws = .done j := by
  unfold view
  rw [hpdf, hjson]
  simp

/-- Witness for C9: a workspace holding both artifacts renders as done
with the result. -/
theorem C9_witness :
    view ⟨true, some (encodePages []), some "boom"⟩
      = .done (encodePages []) :=
  C9_result_artifact_wins ⟨true, some (encodePages []), some "boom"⟩
    (encodePages []) "boom" rfl rfl rfl

/-! ## `webapp.upload` option parsing (webapp.py lines 62-87)

```python
file = request.files.get("pdf")
if not file:
    abort(400, "Missing PDF upload under field 'pdf'.")
languages = _parse_languages(request.form.get("languages"))
try:
    dpi = int(request.form.get("dpi", 300))
except Exception:
    dpi = 300
try:
    min_conf = float(request.form.get("min_conf", 0.2))
except Exception:
    min_conf = 0.2
```

Python's `int(s)` / `float(s)` on strings accept surrounding whitespace,
an optional sign and digits — `float` additionally an optional fractional
part after a dot.  (Underscore separators, exponents and inf/nan are not
modelled; the claims turn only on whether coercion fails.)  When the form
key is missing, `request.form.get` returns the supplied default
directly. -/

def digitsVal (ds : List Char) : Nat :=
  ds.foldl (fun acc c => acc * 10 + (c.toNat - '0'.toNat)) 0

def allDigits (ds : List Char) : Bool :=
  ds.all Char.isDigit

def pyNatDigits (r : List Char) : Option Nat :=
  if r ≠ [] ∧ allDigits r then some (digitsVal r) else none

/-- Python `int(s)` for a string argument. -/
def pyInt (cs : List Char) : Option Int :=
  match pyStrip cs with
  | '+' :: r => (pyNatDigits r).map (fun n => (n : Int))
  | '-' :: r => (pyNatDigits r).map (fun n => -(n : Int))
  | r => (pyNatDigits r).map (fun n => (n : Int))

def pyFloatCore (r : List Char) : Option ℚ :=
  match pySplit '.' r with
  | [ip] => (pyNatDigits ip).map (fun n => (n : ℚ))
  | [ip, fp] =>
    if (allDigits ip ∧ allDigits fp) ∧ (ip ≠ [] ∨ fp ≠ []) then
      some ((digitsVal ip : ℚ) + (digitsVal fp : ℚ) / ((10 : ℚ) ^ fp.length))
    else none
  | _ => none

/-- Python `float(s)` for a string argument. -/
def pyFloat (cs : List Char) : Option ℚ :=
  match pyStrip cs with
  | '+' :: r => pyFloatCore r
  | '-' :: r => (pyFloatCore r).map Neg.neg
  | r => pyFloatCore r

/-- `try: dpi = int(form.get("dpi", 300)) except: dpi = 300`. -/
def uploadDpi (field : Option (List Char)) : Int :=
  match field with
  | none => 300
  | some s =>
    match pyInt s with
    | some n => n
    | none => 300

/-- `try: min_conf = float(form.get("min_conf", 0.2)) except: 0.2`. -/
def uploadMinConf (field : Option (List Char)) : ℚ :=
  match field with
  | none => 1/5
  | some s =>
    match pyFloat s with
    | some q => q
    | none => 1/5

structure UploadForm where
  filePresent : Bool
  languages : Option (List Char)
  dpi : Option (List Char)
  minConf : Option (List Char)

structure JobOptions where
  languages : List (List Char)
  dpi : Int
  minConf : ℚ
  useGpu : Bool
deriving DecidableEq

/-- The submission-time half of `upload`: reject only a missing file,
then parse the options bag (web jobs never enable the GPU). -/
def upload (f : UploadForm) : Except String JobOptions :=
  if f.filePresent = false then
    .error "Missing PDF upload under field 'pdf'."
  else
    .ok ⟨webParseLanguages f.languages, uploadDpi f.dpi,
      uploadMinConf f.minConf, false⟩

/-! ## Claim theorems for C7 -/

/-- **C7.** A web submission with a file attached is never rejected for
malformed options: a `dpi` value `int(...)` cannot parse falls back to
300, a `min_conf` value `float(...)` cannot parse falls back to 0.2, the
missing fields take the same defaults, and a missing or empty `languages`
option falls back to `["en"]`. -/
theorem C7_malformed_options_fallback (f : UploadForm)
    (hfile : f.filePresent = true) :
    ∃ opts, upload f = .ok opts ∧
      (∀ s, f.dpi = some s → pyInt s = none → opts.dpi = 300) ∧
      (f.dpi = none → opts.dpi = 300) ∧
      (∀ s, f.minConf = some s → pyFloat s = none → opts.minConf = 1/5) ∧
      (f.minConf = none → opts.minConf = 1/5) ∧
      ((f.languages = none ∨ f.languages = some []) →
        opts.languages = [['e', 'n']]) := by
  refine ⟨⟨webParseLanguages f.languages, uploadDpi f.dpi,
    uploadMinConf f.minConf, false⟩, ?_, ?_, ?_, ?_, ?_, ?_⟩
  · unfold upload
    rw [hfile]
    simp
  · intro s hs hparse
    simp [uploadDpi, hs, hparse]
  · intro hs
    simp [uploadDpi, hs]
  · intro s hs hparse
    simp [uploadMinConf, hs, hparse]
  · intro hs
    simp [uploadMinConf, hs]
  · intro hl
    rcases hl with hl | hl <;> rw [hl]
    · show webParseLanguages none = [['e', 'n']]
      decide
    · show webParseLanguages (some []) = [['e', 'n']]
      decide

/-- Witness for C7: a submission with empty languages, `dpi="a"` and
`min_conf="x"` is accepted with all three defaults. -/
theorem C7_witness :
    ∃ opts, upload ⟨true, some [], some ['a'], some ['x']⟩ = .ok opts ∧
      (∀ s, (some ['a'] : Option (List Char)) = some s → pyInt s = none →
        opts.dpi = 300) ∧
      ((some ['a'] : Option (List Char)) = none → opts.dpi = 300) ∧
      (∀ s, (some ['x'] : Option (List Char)) = some s → pyFloat s = none →
        opts.minConf = 1/5) ∧
      ((some ['x'] : Option (List Char)) = none → opts.minConf = 1/5) ∧
      (((some [] : Option (List Char)) = none ∨
          (some [] : Option (List Char)) = some []) →
        opts.languages = [['e', 'n']]) :=
  C7_malformed_options_fallback ⟨true, some [], some ['a'], some ['x']⟩ rfl
